import Mathlib

/-!
Shallow embedding of the 3d-orders job-tracking core (`server/storage.ts`,
entity shapes from `shared/schema.ts`).  The in-memory store (`MemStorage`)
keeps each entity collection as an insertion-ordered association list, the
way a JS `Map` iterates its values.  JS numbers are modelled as `Int`
(every value the core manipulates is integral), timestamps (`new Date()`)
as a `Nat` parameter `now` threaded into each operation that reads the
clock, and nullable / optional fields as `Option`.  Partial updates
(`Partial<Insert...>` object spreads) are modelled as patch structures of
`Option` fields applied field by field.
-/

/-- Association list with JS `Map` semantics: `get` finds the first entry
with the key, `set` replaces in place (preserving insertion order) or
appends, `delete` removes the key's entries. -/
def alistGet {α : Type} : List (Nat × α) → Nat → Option α
  | [], _ => none
  | (k, v) :: rest, key => if k = key then some v else alistGet rest key

/-- Replace the entry for `key` in place, or append it (JS `Map.set`). -/
def alistSet {α : Type} : List (Nat × α) → Nat → α → List (Nat × α)
  | [], key, val => [(key, val)]
  | (k, v) :: rest, key, val =>
      if k = key then (key, val) :: rest else (k, v) :: alistSet rest key val

/-- Remove the entries with the given key (JS `Map.delete`). -/
def alistDelete {α : Type} (l : List (Nat × α)) (key : Nat) : List (Nat × α) :=
  l.filter (fun e => e.1 ≠ key)

/-- Customer row (`shared/schema.ts`, table `customers`). -/
structure Customer where
  id : Nat
  name : String
  email : String
  phone : Option String
  company : Option String
deriving DecidableEq, Repr

/-- Job row (`shared/schema.ts`, table `jobs`).  Timestamps are `Nat`. -/
structure Job where
  id : Nat
  customerId : Nat
  jobNumber : String
  status : String
  priority : String
  dueDate : Option Nat
  notes : Option String
  totalEstimatedTime : Option Int
  actualTime : Option Int
  progress : Option Int
  createdAt : Option Nat
  completedAt : Option Nat
deriving DecidableEq, Repr

/-- Job item row as `server/storage.ts` builds it in `createJobItem`
(name, quantity, per-item estimate plus status / completed-quantity /
actual-time fields). -/
structure JobItem where
  id : Nat
  jobId : Nat
  name : String
  quantity : Int
  estimatedTimePerItem : Option Int
  material : Option String
  notes : Option String
  status : String
  completedQuantity : Int
  actualTimePerItem : Option Int
deriving DecidableEq, Repr

/-- Notification row (`shared/schema.ts`, table `notifications`). -/
structure Notification where
  id : Nat
  jobId : Nat
  kind : String
  message : String
  sentAt : Option Nat
  recipientEmail : String
deriving DecidableEq, Repr

/-- Insert payload for a job (`insertJobSchema`: the job columns minus
`id`, `jobNumber`, `createdAt`, `completedAt`). -/
structure InsertJob where
  customerId : Nat
  status : String
  priority : String
  dueDate : Option Nat
  notes : Option String
  totalEstimatedTime : Option Int
  actualTime : Option Int
  progress : Option Int
deriving DecidableEq, Repr

/-- `Partial<InsertJob>`: every field may be present or absent; nullable
fields may additionally be set to null (inner `Option`). -/
structure JobPatch where
  customerId : Option Nat := none
  status : Option String := none
  priority : Option String := none
  dueDate : Option (Option Nat) := none
  notes : Option (Option String) := none
  totalEstimatedTime : Option (Option Int) := none
  actualTime : Option (Option Int) := none
  progress : Option (Option Int) := none
deriving DecidableEq, Repr

/-- Insert payload for a job item. -/
structure InsertJobItem where
  jobId : Nat
  name : String
  quantity : Int
  estimatedTimePerItem : Option Int
  material : Option String
  notes : Option String
  status : Option String
  completedQuantity : Option Int
  actualTimePerItem : Option Int
deriving DecidableEq, Repr

/-- `Partial<InsertJobItem>`. -/
structure JobItemPatch where
  jobId : Option Nat := none
  name : Option String := none
  quantity : Option Int := none
  estimatedTimePerItem : Option (Option Int) := none
  material : Option (Option String) := none
  notes : Option (Option String) := none
  status : Option String := none
  completedQuantity : Option Int := none
  actualTimePerItem : Option (Option Int) := none
deriving DecidableEq, Repr

/-- Object-spread `{ ...existing, ...jobUpdate }` applied field by field. -/
def Job.applyPatch (j : Job) (p : JobPatch) : Job :=
  { j with
    customerId := p.customerId.getD j.customerId
    status := p.status.getD j.status
    priority := p.priority.getD j.priority
    dueDate := p.dueDate.getD j.dueDate
    notes := p.notes.getD j.notes
    totalEstimatedTime := p.totalEstimatedTime.getD j.totalEstimatedTime
    actualTime := p.actualTime.getD j.actualTime
    progress := p.progress.getD j.progress }

/-- Object-spread `{ ...existing, ...itemUpdate }` applied field by field. -/
def JobItem.applyPatch (i : JobItem) (p : JobItemPatch) : JobItem :=
  { i with
    jobId := p.jobId.getD i.jobId
    name := p.name.getD i.name
    quantity := p.quantity.getD i.quantity
    estimatedTimePerItem := p.estimatedTimePerItem.getD i.estimatedTimePerItem
    material := p.material.getD i.material
    notes := p.notes.getD i.notes
    status := p.status.getD i.status
    completedQuantity := p.completedQuantity.getD i.completedQuantity
    actualTimePerItem := p.actualTimePerItem.getD i.actualTimePerItem }

/-- The in-memory store: the fields of class `MemStorage`. -/
structure MemStorage where
  customers : List (Nat × Customer)
  jobs : List (Nat × Job)
  jobItems : List (Nat × JobItem)
  notifications : List (Nat × Notification)
  currentCustomerId : Nat
  currentJobId : Nat
  currentJobItemId : Nat
  currentNotificationId : Nat
  jobCounter : Nat
deriving DecidableEq, Repr

/-- JS `String(n).padStart(len, c)`. -/
def padStart (str : String) (len : Nat) (c : Char) : String :=
  if str.length < len then String.mk (List.replicate (len - str.length) c) ++ str
  else str

/-- JS `Math.round` under exact rational semantics: halves round toward
positive infinity. -/
def jsRound (x : ℚ) : Int := ⌊x + 1 / 2⌋

/-- `generateJobNumber`: formats `` `${year}-${number}` `` from the
post-increment read of `this.jobCounter`, zero-padded to 3 digits, and
bumps the counter.  The current year is a parameter. -/
def MemStorage.generateJobNumber (s : MemStorage) (year : Nat) : String × MemStorage :=
  (toString year ++ "-" ++ padStart (toString s.jobCounter) 3 '0',
   { s with jobCounter := s.jobCounter + 1 })

/-- The job written by `updateJob` when the record exists: the patched job
with `completedAt` set to now exactly when the patch's `status` field is
`"completed"`, else kept. -/
def updateJobApply (j : Job) (p : JobPatch) (now : Nat) : Job :=
  { j.applyPatch p with
    completedAt := if p.status = some "completed" then some now else j.completedAt }

/-- `updateJob(id, jobUpdate)`: returns `undefined` (modelled `none`) and
leaves the store untouched when the job is missing, else stores and
returns the merged record. -/
def MemStorage.updateJob (s : MemStorage) (id : Nat) (p : JobPatch) (now : Nat) :
    MemStorage × Option Job :=
  match alistGet s.jobs id with
  | none => (s, none)
  | some existing =>
      let updated := updateJobApply existing p now
      ({ s with jobs := alistSet s.jobs id updated }, some updated)

/-- `getJobItems(jobId)`: the stored items, in insertion order, filtered
by `jobId`. -/
def MemStorage.getJobItems (s : MemStorage) (jobId : Nat) : List JobItem :=
  (s.jobItems.map Prod.snd).filter (fun item => item.jobId == jobId)

/-- The reduce in `updateJobTotalTime`:
`sum + (item.estimatedTimePerItem || 0) * item.quantity` from 0. -/
def estimatedTotal (items : List JobItem) : Int :=
  items.foldl (fun sum item => sum + item.estimatedTimePerItem.getD 0 * item.quantity) 0

/-- The first reduce in `updateJobProgress`: `sum + item.quantity` from 0. -/
def totalUnits (items : List JobItem) : Int :=
  items.foldl (fun sum item => sum + item.quantity) 0

/-- The second reduce in `updateJobProgress`:
`sum + (item.completedQuantity || 0)` from 0 (the field is always a number
in the store, so `|| 0` only maps 0 to itself). -/
def completedUnits (items : List JobItem) : Int :=
  items.foldl (fun sum item => sum + item.completedQuantity) 0

/-- `totalItems > 0 ? Math.round((completedItems / totalItems) * 100) : 0`. -/
def derivedProgress (items : List JobItem) : Int :=
  if 0 < totalUnits items then
    jsRound ((completedUnits items : ℚ) / (totalUnits items : ℚ) * 100)
  else 0

/-- The status ladder of `updateJobProgress`: start from `"not_started"`,
`"printing"` when `0 < progress < 100`, `"completed"` when `progress ===
100`. -/
def derivedStatus (progress : Int) : String :=
  if 0 < progress ∧ progress < 100 then "printing"
  else if progress = 100 then "completed"
  else "not_started"

/-- `updateJobTotalTime(jobId)`: recompute the estimated total from the
current items and write it through `updateJob`. -/
def MemStorage.updateJobTotalTime (s : MemStorage) (jobId now : Nat) : MemStorage :=
  let totalTime := estimatedTotal (s.getJobItems jobId)
  (s.updateJob jobId { totalEstimatedTime := some (some totalTime) } now).1

/-- `updateJobProgress(jobId)`: recompute progress and the derived status
from the current items and write both through `updateJob`. -/
def MemStorage.updateJobProgress (s : MemStorage) (jobId now : Nat) : MemStorage :=
  let progress := derivedProgress (s.getJobItems jobId)
  let status := derivedStatus progress
  (s.updateJob jobId { progress := some (some progress), status := some status } now).1

/-- `createJob(insertJob)`: consume an id and a job number, stamp
`createdAt`, null `completedAt`, defaulted optional fields, and store. -/
def MemStorage.createJob (s : MemStorage) (ins : InsertJob) (year now : Nat) :
    MemStorage × Job :=
  let id := s.currentJobId
  let g := s.generateJobNumber year
  let job : Job :=
    { id := id
      customerId := ins.customerId
      jobNumber := g.1
      status := ins.status
      priority := ins.priority
      dueDate := ins.dueDate
      notes := ins.notes
      totalEstimatedTime := ins.totalEstimatedTime
      actualTime := ins.actualTime
      progress := ins.progress
      createdAt := some now
      completedAt := none }
  ({ g.2 with currentJobId := id + 1, jobs := alistSet g.2.jobs id job }, job)

/-- `deleteJob(id)`: drop the job's items, then the job; the result tells
whether the job existed. -/
def MemStorage.deleteJob (s : MemStorage) (id : Nat) : MemStorage × Bool :=
  ({ s with
      jobItems := s.jobItems.filter (fun e => e.2.jobId ≠ id)
      jobs := alistDelete s.jobs id },
   (alistGet s.jobs id).isSome)

/-- `createJobItem(insertItem)`: store the defaulted item, then run
`updateJobTotalTime` and `updateJobProgress` on the item's job. -/
def MemStorage.createJobItem (s : MemStorage) (ins : InsertJobItem) (now : Nat) :
    MemStorage × JobItem :=
  let id := s.currentJobItemId
  let item : JobItem :=
    { id := id
      jobId := ins.jobId
      name := ins.name
      quantity := ins.quantity
      estimatedTimePerItem := ins.estimatedTimePerItem
      material := ins.material
      notes := ins.notes
      status := ins.status.getD "not_started"
      completedQuantity := ins.completedQuantity.getD 0
      actualTimePerItem := ins.actualTimePerItem }
  let s1 := { s with currentJobItemId := id + 1, jobItems := alistSet s.jobItems id item }
  let s2 := s1.updateJobTotalTime ins.jobId now
  let s3 := s2.updateJobProgress ins.jobId now
  (s3, item)

/-- `updateJobItem(id, itemUpdate)`: merge-and-store when the item exists,
then run both recomputes on the item's previous `jobId`. -/
def MemStorage.updateJobItem (s : MemStorage) (id : Nat) (p : JobItemPatch) (now : Nat) :
    MemStorage × Option JobItem :=
  match alistGet s.jobItems id with
  | none => (s, none)
  | some existing =>
      let updated := existing.applyPatch p
      let s1 := { s with jobItems := alistSet s.jobItems id updated }
      let s2 := s1.updateJobTotalTime existing.jobId now
      let s3 := s2.updateJobProgress existing.jobId now
      (s3, some updated)

/-- `deleteJobItem(id)`: remove the item when it exists, then run only
`updateJobTotalTime` on its job (no progress recompute on this path). -/
def MemStorage.deleteJobItem (s : MemStorage) (id : Nat) (now : Nat) :
    MemStorage × Bool :=
  match alistGet s.jobItems id with
  | none => (s, false)
  | some item =>
      let s1 := { s with jobItems := alistDelete s.jobItems id }
      let s2 := s1.updateJobTotalTime item.jobId now
      (s2, true)

/-! ### Concrete states used to exercise the operations -/

/-- A job with two items, half of the units done. -/
def jobA : Job :=
  { id := 1, customerId := 1, jobNumber := "2024-001", status := "printing",
    priority := "normal", dueDate := none, notes := none,
    totalEstimatedTime := some 45, actualTime := none, progress := some 50,
    createdAt := some 0, completedAt := none }

/-- Item with 4 units, 10 minutes each, all 4 done. -/
def itemA : JobItem :=
  { id := 1, jobId := 1, name := "A", quantity := 4,
    estimatedTimePerItem := some 10, material := none, notes := none,
    status := "not_started", completedQuantity := 4, actualTimePerItem := none }

/-- Item with 4 units, 5 minutes each, none done. -/
def itemB : JobItem :=
  { id := 2, jobId := 1, name := "B", quantity := 4,
    estimatedTimePerItem := some 5, material := none, notes := none,
    status := "not_started", completedQuantity := 0, actualTimePerItem := none }

/-- Store with job 1 and its two items. -/
def s0 : MemStorage :=
  { customers := [], jobs := [(1, jobA)], jobItems := [(1, itemA), (2, itemB)],
    notifications := [], currentCustomerId := 1, currentJobId := 2,
    currentJobItemId := 3, currentNotificationId := 1, jobCounter := 2 }

/-- Store where job 1's only item is fully completed (4 of 4 units). -/
def sOne : MemStorage := { s0 with jobItems := [(1, itemA)] }

/-- Job 1 with a manually set `"paused"` status. -/
def jobPaused : Job := { jobA with status := "paused" }

/-- Store with job 1 paused and its two items. -/
def sPaused : MemStorage := { s0 with jobs := [(1, jobPaused)] }

/-- An already-completed job carrying an old completion timestamp. -/
def jobDone : Job :=
  { jobA with status := "completed", progress := some 100, completedAt := some 5 }

/-- Store holding only the already-completed job. -/
def sDone : MemStorage := { s0 with jobs := [(1, jobDone)], jobItems := [] }

/-- A store in its start-of-process shape: empty maps, every counter 1. -/
def sFresh : MemStorage :=
  { customers := [], jobs := [], jobItems := [], notifications := [],
    currentCustomerId := 1, currentJobId := 1, currentJobItemId := 1,
    currentNotificationId := 1, jobCounter := 1 }

/-- Insert payload adding a third item (2 units, 7 minutes each, 1 done)
to job 1. -/
def insItemC : InsertJobItem :=
  { jobId := 1, name := "C", quantity := 2, estimatedTimePerItem := some 7,
    material := none, notes := none, status := none,
    completedQuantity := some 1, actualTimePerItem := none }

/-- Insert payload for a job, carrying verbatim derived-field values. -/
def insJobX : InsertJob :=
  { customerId := 3, status := "not_started", priority := "high",
    dueDate := none, notes := some "rush", totalEstimatedTime := some 999,
    actualTime := none, progress := some 7 }

/-! ### Spec-side formulas

These definitions follow the spec's words (sums written as `Σ` over the
items, rounding written as round-half-up), to be compared with the
fold-based computations the source performs. -/

/-- From the spec's words: `Σ estimatedTimePerItem × quantity` over items,
with a missing per-item estimate read as 0. -/
def specTotalTime (items : List JobItem) : Int :=
  (items.map (fun i => i.estimatedTimePerItem.getD 0 * i.quantity)).sum

/-- From the spec's words: `Σ quantity` over items. -/
def specQuantity (items : List JobItem) : Int :=
  (items.map (fun i => i.quantity)).sum

/-- From the spec's words: `Σ completedQuantity` over items. -/
def specCompleted (items : List JobItem) : Int :=
  (items.map (fun i => i.completedQuantity)).sum

/-- From the spec's words: rounding half-up to an integer. -/
def roundHalfUp (x : ℚ) : Int := ⌊x + 1 / 2⌋

/-- Integer evaluation form of `derivedProgress`: with `q = totalUnits`
positive, `⌊100 c / q + 1/2⌋ = (200 c + q) / (2 q)`. -/
def derivedProgressInt (items : List JobItem) : Int :=
  if 0 < totalUnits items then
    (200 * completedUnits items + totalUnits items) / (2 * totalUnits items)
  else 0

/-- The back-to-back recompute pair that runs after an item create or
update: `updateJobTotalTime` then `updateJobProgress`. -/
def recomputePair (s : MemStorage) (jobId now : Nat) : MemStorage :=
  (s.updateJobTotalTime jobId now).updateJobProgress jobId now

/-- Iterate `generateJobNumber` n times, keeping only the state. -/
def genCalls (s : MemStorage) (year : Nat) : Nat → MemStorage
  | 0 => s
  | n + 1 => ((genCalls s year n).generateJobNumber year).2

/-- The string returned by the n-th call (n ≥ 1) to `generateJobNumber`,
counting from state `s`. -/
def nthJobNumber (s : MemStorage) (year n : Nat) : String :=
  ((genCalls s year (n - 1)).generateJobNumber year).1

/-- The job's `totalEstimatedTime` agrees with the spec's sum over the
store's current items for that job. -/
def totalTimeInvariant (s : MemStorage) (jobId : Nat) : Prop :=
  ∀ j, alistGet s.jobs jobId = some j →
    j.totalEstimatedTime = some (specTotalTime (s.getJobItems jobId))

/-! ### Association-list lemmas -/

theorem alistGet_set_self {α : Type} (l : List (Nat × α)) (k : Nat) (v : α) :
    alistGet (alistSet l k v) k = some v := by
  induction l with
  | nil => simp [alistSet, alistGet]
  | cons e rest ih =>
      by_cases h : e.1 = k
      · obtain ⟨k0, v0⟩ := e
        simp only at h
        simp [alistSet, h, alistGet]
      · obtain ⟨k0, v0⟩ := e
        simp only at h
        simp [alistSet, h, alistGet, ih]

theorem alistGet_set_ne {α : Type} (l : List (Nat × α)) (k key : Nat) (v : α)
    (h : key ≠ k) : alistGet (alistSet l k v) key = alistGet l key := by
  induction l with
  | nil => simp [alistSet, alistGet, h, Ne.symm h]
  | cons e rest ih =>
      obtain ⟨k0, v0⟩ := e
      by_cases hk : k0 = k
      · simp [alistSet, hk, alistGet, Ne.symm h]
      · simp [alistSet, hk, alistGet, ih]

/-! ### Fold and sum bridges -/

theorem foldl_add_eq {α : Type} (f : α → Int) (l : List α) (a : Int) :
    l.foldl (fun sum x => sum + f x) a = a + (l.map f).sum := by
  induction l generalizing a with
  | nil => simp
  | cons x xs ih => simp [List.foldl_cons, ih, add_assoc]

theorem estimatedTotal_eq_spec (items : List JobItem) :
    estimatedTotal items = specTotalTime items := by
  unfold estimatedTotal specTotalTime
  rw [foldl_add_eq, zero_add]

theorem totalUnits_eq_spec (items : List JobItem) :
    totalUnits items = specQuantity items := by
  unfold totalUnits specQuantity
  rw [foldl_add_eq, zero_add]

theorem completedUnits_eq_spec (items : List JobItem) :
    completedUnits items = specCompleted items := by
  unfold completedUnits specCompleted
  rw [foldl_add_eq, zero_add]

/-! ### Integer form of the progress computation -/

theorem int_floor_div (a b : Int) (hb : 0 < b) :
    ⌊(a : ℚ) / (b : ℚ)⌋ = a / b := by
  have hbn : ((b.toNat : ℕ) : ℤ) = b := Int.toNat_of_nonneg hb.le
  rw [← hbn]
  push_cast
  exact Rat.floor_intCast_div_natCast a b.toNat

theorem derivedProgress_eq_int (items : List JobItem) :
    derivedProgress items = derivedProgressInt items := by
  unfold derivedProgress derivedProgressInt jsRound
  split
  · next h =>
      have hq : ((totalUnits items : ℚ)) ≠ 0 := by
        exact_mod_cast (ne_of_gt h)
      have harg : (completedUnits items : ℚ) / (totalUnits items : ℚ) * 100 + 1 / 2
          = ((200 * completedUnits items + totalUnits items : ℤ) : ℚ) /
            ((2 * totalUnits items : ℤ) : ℚ) := by
        push_cast
        field_simp
        ring
      rw [harg, int_floor_div _ _ (by omega)]
  · rfl

/-! ### Characterization of `updateJob` and the recomputes -/

theorem updateJob_absent (s : MemStorage) (id : Nat) (p : JobPatch) (now : Nat)
    (h : alistGet s.jobs id = none) : s.updateJob id p now = (s, none) := by
  unfold MemStorage.updateJob
  rw [h]

theorem updateJob_present (s : MemStorage) (id : Nat) (p : JobPatch) (now : Nat)
    (j0 : Job) (h : alistGet s.jobs id = some j0) :
    s.updateJob id p now =
      ({ s with jobs := alistSet s.jobs id (updateJobApply j0 p now) },
       some (updateJobApply j0 p now)) := by
  unfold MemStorage.updateJob
  rw [h]

theorem updateJobApply_totalPatch (j0 : Job) (t : Int) (now : Nat) :
    updateJobApply j0 { totalEstimatedTime := some (some t) } now =
      { j0 with totalEstimatedTime := some t } := rfl

theorem updateJobApply_progressPatch (j0 : Job) (pg : Int) (st : String) (now : Nat) :
    updateJobApply j0 { progress := some (some pg), status := some st } now =
      { j0 with progress := some pg, status := st,
                completedAt := if st = "completed" then some now else j0.completedAt } := by
  unfold updateJobApply Job.applyPatch
  simp only [Option.getD_some, Option.getD_none, Option.some.injEq]

theorem updateJobTotalTime_absent (s : MemStorage) (jobId now : Nat)
    (h : alistGet s.jobs jobId = none) : s.updateJobTotalTime jobId now = s := by
  show (s.updateJob jobId
      { totalEstimatedTime := some (some (estimatedTotal (s.getJobItems jobId))) } now).1 = s
  rw [updateJob_absent s jobId _ now h]

theorem updateJobTotalTime_present (s : MemStorage) (jobId now : Nat) (j0 : Job)
    (h : alistGet s.jobs jobId = some j0) :
    s.updateJobTotalTime jobId now =
      { s with
        jobs :=
          alistSet s.jobs jobId
            { j0 with totalEstimatedTime := some (estimatedTotal (s.getJobItems jobId)) } } := by
  show (s.updateJob jobId
      { totalEstimatedTime := some (some (estimatedTotal (s.getJobItems jobId))) } now).1 = _
  rw [updateJob_present s jobId _ now j0 h, updateJobApply_totalPatch]

theorem updateJobProgress_absent (s : MemStorage) (jobId now : Nat)
    (h : alistGet s.jobs jobId = none) : s.updateJobProgress jobId now = s := by
  show (s.updateJob jobId
      { progress := some (some (derivedProgress (s.getJobItems jobId)))
        status := some (derivedStatus (derivedProgress (s.getJobItems jobId))) } now).1 = s
  rw [updateJob_absent s jobId _ now h]

theorem updateJobProgress_present (s : MemStorage) (jobId now : Nat) (j0 : Job)
    (h : alistGet s.jobs jobId = some j0) :
    s.updateJobProgress jobId now =
      { s with
        jobs :=
          alistSet s.jobs jobId
            { j0 with
              progress := some (derivedProgress (s.getJobItems jobId))
              status := derivedStatus (derivedProgress (s.getJobItems jobId))
              completedAt :=
                if derivedStatus (derivedProgress (s.getJobItems jobId)) = "completed"
                then some now else j0.completedAt } } := by
  show (s.updateJob jobId
      { progress := some (some (derivedProgress (s.getJobItems jobId)))
        status := some (derivedStatus (derivedProgress (s.getJobItems jobId))) } now).1 = _
  rw [updateJob_present s jobId _ now j0 h, updateJobApply_progressPatch]

/-- `updateJobProgress` with the ℚ rounding replaced by its integer
evaluation form, for computing on concrete stores. -/
theorem updateJobProgress_int_form (s : MemStorage) (jobId now : Nat) :
    s.updateJobProgress jobId now =
      (s.updateJob jobId
        { progress := some (some (derivedProgressInt (s.getJobItems jobId)))
          status := some (derivedStatus (derivedProgressInt (s.getJobItems jobId))) }
        now).1 := by
  show (s.updateJob jobId
      { progress := some (some (derivedProgress (s.getJobItems jobId)))
        status := some (derivedStatus (derivedProgress (s.getJobItems jobId))) } now).1 = _
  rw [derivedProgress_eq_int]

theorem updateJobTotalTime_jobItems (s : MemStorage) (jobId now : Nat) :
    (s.updateJobTotalTime jobId now).jobItems = s.jobItems := by
  cases h : alistGet s.jobs jobId with
  | none => rw [updateJobTotalTime_absent s jobId now h]
  | some j0 => rw [updateJobTotalTime_present s jobId now j0 h]

theorem updateJobProgress_jobItems (s : MemStorage) (jobId now : Nat) :
    (s.updateJobProgress jobId now).jobItems = s.jobItems := by
  cases h : alistGet s.jobs jobId with
  | none => rw [updateJobProgress_absent s jobId now h]
  | some j0 => rw [updateJobProgress_present s jobId now j0 h]

theorem getJobItems_congr (s1 s2 : MemStorage) (jobId : Nat)
    (h : s1.jobItems = s2.jobItems) : s1.getJobItems jobId = s2.getJobItems jobId := by
  unfold MemStorage.getJobItems
  rw [h]

/-- `updateJobTotalTime` establishes the spec's total-time invariant on
the job it targets. -/
theorem totalTimeInvariant_after_totalTime (s : MemStorage) (jobId now : Nat) :
    totalTimeInvariant (s.updateJobTotalTime jobId now) jobId := by
  cases h : alistGet s.jobs jobId with
  | none =>
      rw [updateJobTotalTime_absent s jobId now h]
      intro j hj
      rw [h] at hj
      cases hj
  | some j0 =>
      rw [updateJobTotalTime_present s jobId now j0 h]
      intro j hj
      rw [alistGet_set_self] at hj
      cases hj
      show some (estimatedTotal (s.getJobItems jobId)) = _
      rw [estimatedTotal_eq_spec]
      rfl

/-- `updateJobProgress` does not disturb the total-time invariant. -/
theorem totalTimeInvariant_after_progress (s : MemStorage) (jobId now : Nat)
    (hs : totalTimeInvariant s jobId) :
    totalTimeInvariant (s.updateJobProgress jobId now) jobId := by
  cases h : alistGet s.jobs jobId with
  | none =>
      rw [updateJobProgress_absent s jobId now h]
      exact hs
  | some j0 =>
      rw [updateJobProgress_present s jobId now j0 h]
      intro j hj
      rw [alistGet_set_self] at hj
      cases hj
      show j0.totalEstimatedTime = _
      exact hs j0 h

theorem recomputePair_absent (s : MemStorage) (jobId now : Nat)
    (h : alistGet s.jobs jobId = none) : recomputePair s jobId now = s := by
  unfold recomputePair
  rw [updateJobTotalTime_absent s jobId now h, updateJobProgress_absent s jobId now h]

theorem recomputePair_jobItems (s : MemStorage) (jobId now : Nat) :
    (recomputePair s jobId now).jobItems = s.jobItems := by
  unfold recomputePair
  rw [updateJobProgress_jobItems, updateJobTotalTime_jobItems]

/-- What the recompute pair stores for an existing job: recomputed total,
progress and status, with `completedAt` refreshed to `now` exactly when
the derived status is `"completed"`. -/
theorem recomputePair_get (s : MemStorage) (jobId now : Nat) (j0 : Job)
    (h : alistGet s.jobs jobId = some j0) :
    alistGet (recomputePair s jobId now).jobs jobId =
      some
        { j0 with
          totalEstimatedTime := some (estimatedTotal (s.getJobItems jobId))
          progress := some (derivedProgress (s.getJobItems jobId))
          status := derivedStatus (derivedProgress (s.getJobItems jobId))
          completedAt :=
            if derivedStatus (derivedProgress (s.getJobItems jobId)) = "completed"
            then some now else j0.completedAt } := by
  unfold recomputePair
  rw [updateJobTotalTime_present s jobId now j0 h]
  rw [updateJobProgress_present _ jobId now
        { j0 with totalEstimatedTime := some (estimatedTotal (s.getJobItems jobId)) }
        (alistGet_set_self s.jobs jobId _)]
  rw [alistGet_set_self]
  rfl

theorem genCalls_jobCounter (s : MemStorage) (year : Nat) :
    ∀ n, (genCalls s year n).jobCounter = s.jobCounter + n := by
  intro n
  induction n with
  | zero => rfl
  | succ k ih =>
      show ((genCalls s year k).generateJobNumber year).2.jobCounter = _
      unfold MemStorage.generateJobNumber
      show (genCalls s year k).jobCounter + 1 = _
      rw [ih]
      omega

theorem createJobItem_eq (s : MemStorage) (ins : InsertJobItem) (now : Nat) :
    s.createJobItem ins now =
      (recomputePair
        { s with
          currentJobItemId := s.currentJobItemId + 1
          jobItems :=
            alistSet s.jobItems s.currentJobItemId
              { id := s.currentJobItemId, jobId := ins.jobId, name := ins.name,
                quantity := ins.quantity,
                estimatedTimePerItem := ins.estimatedTimePerItem,
                material := ins.material, notes := ins.notes,
                status := ins.status.getD "not_started",
                completedQuantity := ins.completedQuantity.getD 0,
                actualTimePerItem := ins.actualTimePerItem } }
        ins.jobId now,
       { id := s.currentJobItemId, jobId := ins.jobId, name := ins.name,
         quantity := ins.quantity,
         estimatedTimePerItem := ins.estimatedTimePerItem,
         material := ins.material, notes := ins.notes,
         status := ins.status.getD "not_started",
         completedQuantity := ins.completedQuantity.getD 0,
         actualTimePerItem := ins.actualTimePerItem }) := rfl

theorem updateJobItem_present_eq (s : MemStorage) (id : Nat) (p : JobItemPatch)
    (now : Nat) (e : JobItem) (h : alistGet s.jobItems id = some e) :
    s.updateJobItem id p now =
      (recomputePair { s with jobItems := alistSet s.jobItems id (e.applyPatch p) }
        e.jobId now,
       some (e.applyPatch p)) := by
  unfold MemStorage.updateJobItem
  rw [h]
  rfl

theorem deleteJobItem_present_eq (s : MemStorage) (id now : Nat) (it : JobItem)
    (h : alistGet s.jobItems id = some it) :
    s.deleteJobItem id now =
      (({ s with jobItems := alistDelete s.jobItems id }).updateJobTotalTime it.jobId now,
       true) := by
  unfold MemStorage.deleteJobItem
  rw [h]

/-! ### Claims -/

/-- C1: for every store and any item mutation — `createJobItem`,
`updateJobItem` on an existing item, or `deleteJobItem` of an existing
item — immediately afterwards the job whose recompute the mutation
triggered has `totalEstimatedTime` equal to the sum over its current
items of `(estimatedTimePerItem ?? 0) × quantity` (the empty sum 0 when
it has no items). -/
theorem claim_C1_totalTime (s : MemStorage) (now : Nat) :
    (∀ ins : InsertJobItem, totalTimeInvariant (s.createJobItem ins now).1 ins.jobId) ∧
    (∀ (id : Nat) (p : JobItemPatch) (e : JobItem), alistGet s.jobItems id = some e →
        totalTimeInvariant (s.updateJobItem id p now).1 e.jobId) ∧
    (∀ (id : Nat) (it : JobItem), alistGet s.jobItems id = some it →
        totalTimeInvariant (s.deleteJobItem id now).1 it.jobId) := by
  refine ⟨fun ins => ?_, fun id p e h => ?_, fun id it h => ?_⟩
  · rw [createJobItem_eq]
    exact totalTimeInvariant_after_progress _ _ _ (totalTimeInvariant_after_totalTime _ _ _)
  · rw [updateJobItem_present_eq s id p now e h]
    exact totalTimeInvariant_after_progress _ _ _ (totalTimeInvariant_after_totalTime _ _ _)
  · rw [deleteJobItem_present_eq s id now it h]
    exact totalTimeInvariant_after_totalTime _ _ _

/-- C7: with the process-start counter 1, the n-th call (n ≥ 1) to
`generateJobNumber` returns `"<year>-<seq>"` with `seq` equal to n
left-padded with zeros to at least 3 digits; after n calls the counter is
n + 1 (monotonically increasing from 1, never reset), and `deleteJob`
leaves the counter alone (sequence values are never reused). -/
theorem claim_C7_jobNumbers (year n : Nat) (s : MemStorage)
    (hs : s.jobCounter = 1) (hn : 1 ≤ n) :
    nthJobNumber s year n = toString year ++ "-" ++ padStart (toString n) 3 '0' ∧
    (genCalls s year n).jobCounter = n + 1 ∧
    (∀ id, (((genCalls s year n).deleteJob id).1).jobCounter = n + 1) := by
  have hc : (genCalls s year (n - 1)).jobCounter = n := by
    rw [genCalls_jobCounter, hs]
    omega
  refine ⟨?_, ?_, fun id => ?_⟩
  · unfold nthJobNumber MemStorage.generateJobNumber
    rw [hc]
  · rw [genCalls_jobCounter, hs]
    omega
  · show (genCalls s year n).jobCounter = n + 1
    rw [genCalls_jobCounter, hs]
    omega

/-- C9: running either recompute against a `jobId` with no job record is a
total no-op: no failure is signalled and the whole store — jobs, items,
customers, notifications and counters alike — is returned unchanged. -/
theorem claim_C9_missingJob (s : MemStorage) (jobId now : Nat)
    (h : alistGet s.jobs jobId = none) :
    s.updateJobTotalTime jobId now = s ∧ s.updateJobProgress jobId now = s :=
  ⟨updateJobTotalTime_absent s jobId now h, updateJobProgress_absent s jobId now h⟩

/-- C10: `createJob` does not recompute anything from items: the stored
and returned job has `completedAt = null`, `createdAt = now`, and takes
`totalEstimatedTime` and `progress` verbatim from the insert payload,
whatever items the store holds, and the item store is untouched. -/
theorem claim_C10_createJob (s : MemStorage) (ins : InsertJob) (year now : Nat) :
    (s.createJob ins year now).2.completedAt = none ∧
    (s.createJob ins year now).2.createdAt = some now ∧
    (s.createJob ins year now).2.totalEstimatedTime = ins.totalEstimatedTime ∧
    (s.createJob ins year now).2.progress = ins.progress ∧
    ((s.createJob ins year now).1).jobItems = s.jobItems ∧
    alistGet ((s.createJob ins year now).1).jobs s.currentJobId =
      some (s.createJob ins year now).2 := by
  refine ⟨rfl, rfl, rfl, rfl, rfl, ?_⟩
  show alistGet (alistSet s.jobs s.currentJobId _) s.currentJobId = _
  rw [alistGet_set_self]
  rfl

/-- Field-level description of the job stored by `updateJobProgress` for
an existing job. -/
theorem updateJobProgress_fields (s : MemStorage) (jobId now : Nat) (j0 : Job)
    (h : alistGet s.jobs jobId = some j0) (j : Job)
    (hj : alistGet (s.updateJobProgress jobId now).jobs jobId = some j) :
    j.progress = some (derivedProgress (s.getJobItems jobId)) ∧
    j.status = derivedStatus (derivedProgress (s.getJobItems jobId)) ∧
    j.completedAt = (if derivedStatus (derivedProgress (s.getJobItems jobId)) = "completed"
                     then some now else j0.completedAt) ∧
    j.totalEstimatedTime = j0.totalEstimatedTime := by
  rw [updateJobProgress_present s jobId now j0 h, alistGet_set_self] at hj
  cases hj
  exact ⟨rfl, rfl, rfl, rfl⟩

/-- Field-level description of the job stored by the recompute pair for
an existing job. -/
theorem recomputePair_fields (s : MemStorage) (jobId now : Nat) (j0 : Job)
    (h : alistGet s.jobs jobId = some j0) (j : Job)
    (hj : alistGet (recomputePair s jobId now).jobs jobId = some j) :
    j.id = j0.id ∧ j.customerId = j0.customerId ∧ j.jobNumber = j0.jobNumber ∧
    j.priority = j0.priority ∧ j.dueDate = j0.dueDate ∧ j.notes = j0.notes ∧
    j.actualTime = j0.actualTime ∧ j.createdAt = j0.createdAt ∧
    j.totalEstimatedTime = some (estimatedTotal (s.getJobItems jobId)) ∧
    j.progress = some (derivedProgress (s.getJobItems jobId)) ∧
    j.status = derivedStatus (derivedProgress (s.getJobItems jobId)) ∧
    j.completedAt = (if derivedStatus (derivedProgress (s.getJobItems jobId)) = "completed"
                     then some now else j0.completedAt) := by
  rw [recomputePair_get s jobId now j0 h] at hj
  cases hj
  exact ⟨rfl, rfl, rfl, rfl, rfl, rfl, rfl, rfl, rfl, rfl, rfl, rfl⟩

/-- C2: immediately after `updateJobProgress` runs for an existing job,
the stored `progress` equals `round(100 × ΣcompletedQuantity /
Σquantity)` over its current items, rounded half-up, when the total
quantity is positive, and 0 when the total quantity is 0 (including the
zero-items case). -/
theorem claim_C2_progress (s : MemStorage) (jobId now : Nat) (j : Job)
    (h : alistGet (s.updateJobProgress jobId now).jobs jobId = some j) :
    (0 < specQuantity ((s.updateJobProgress jobId now).getJobItems jobId) →
      j.progress = some (roundHalfUp
        (100 * (specCompleted ((s.updateJobProgress jobId now).getJobItems jobId) : ℚ) /
          (specQuantity ((s.updateJobProgress jobId now).getJobItems jobId) : ℚ)))) ∧
    (specQuantity ((s.updateJobProgress jobId now).getJobItems jobId) = 0 →
      j.progress = some 0) := by
  have hit : (s.updateJobProgress jobId now).getJobItems jobId = s.getJobItems jobId :=
    getJobItems_congr _ _ _ (updateJobProgress_jobItems s jobId now)
  rw [hit]
  cases e : alistGet s.jobs jobId with
  | none =>
      rw [updateJobProgress_absent s jobId now e] at h
      rw [e] at h
      cases h
  | some j0 =>
      obtain ⟨hp, -, -, -⟩ := updateJobProgress_fields s jobId now j0 e j h
      rw [hp]
      unfold derivedProgress
      rw [totalUnits_eq_spec, completedUnits_eq_spec]
      constructor
      · intro hq
        rw [if_pos hq]
        unfold jsRound roundHalfUp
        congr 2
        ring
      · intro hq
        rw [if_neg (by omega)]

/-- C3: immediately after `updateJobProgress` runs for an existing job,
the stored status follows the progress mapping — 0 gives
`"not_started"`, strictly between 0 and 100 gives `"printing"`, 100
gives `"completed"` — and the written status is a function of the
current items alone, so it replaces whatever status was stored before,
a manually set `"paused"` included. -/
theorem claim_C3_statusMap (s : MemStorage) (jobId now : Nat) (j : Job)
    (h : alistGet (s.updateJobProgress jobId now).jobs jobId = some j) :
    (j.progress = some 0 → j.status = "not_started") ∧
    (∀ p : Int, j.progress = some p → 0 < p → p < 100 → j.status = "printing") ∧
    (j.progress = some 100 → j.status = "completed") ∧
    (∀ j0, alistGet s.jobs jobId = some j0 →
      j.status = derivedStatus (derivedProgress (s.getJobItems jobId))) := by
  cases e : alistGet s.jobs jobId with
  | none =>
      rw [updateJobProgress_absent s jobId now e] at h
      rw [e] at h
      cases h
  | some j0 =>
      obtain ⟨hp, hst, -, -⟩ := updateJobProgress_fields s jobId now j0 e j h
      refine ⟨?_, ?_, ?_, fun _ _ => hst⟩
      · intro h0
        rw [hp] at h0
        have hz := Option.some.inj h0
        rw [hst, hz]
        decide
      · intro p h0 h1 h2
        rw [hp] at h0
        have hz := Option.some.inj h0
        rw [hst, hz]
        unfold derivedStatus
        rw [if_pos ⟨h1, h2⟩]
      · intro h0
        rw [hp] at h0
        have hz := Option.some.inj h0
        rw [hst, hz]
        decide

/-- C4 counterexample: in `s0`, job 1 has two items — A (4 of 4 units
done, 10 min each) and B (0 of 4 units done, 5 min each) — and stored
progress 50.  Deleting item B leaves only fully-done units, so the
recompute formula over the remaining items gives 100, yet the stored job
after `deleteJobItem` still carries progress 50: only
`totalEstimatedTime` was recomputed (45 → 40), refuting the claim that
progress is recomputed against the new denominator. -/
theorem claim_C4_counterexample :
    alistGet ((s0.deleteJobItem 2 0).1).jobs 1 =
        some { jobA with totalEstimatedTime := some 40 } ∧
    specQuantity (((s0.deleteJobItem 2 0).1).getJobItems 1) = 4 ∧
    specCompleted (((s0.deleteJobItem 2 0).1).getJobItems 1) = 4 ∧
    roundHalfUp (100 * (4 : ℚ) / 4) = 100 ∧
    ({ jobA with totalEstimatedTime := some 40 } : Job).progress = some 50 := by
  refine ⟨by decide, by decide, by decide, ?_, rfl⟩
  unfold roundHalfUp
  norm_num

/-- C4 amended: after `deleteJobItem` removes an existing item, the
owning job's `totalEstimatedTime` is recomputed over the remaining
items, but `progress` is NOT recomputed — `deleteJobItem` triggers only
`updateJobTotalTime`, so the job's stored progress keeps its prior
value. -/
theorem claim_C4_amended (s : MemStorage) (id now : Nat) (it : JobItem)
    (h : alistGet s.jobItems id = some it) :
    totalTimeInvariant (s.deleteJobItem id now).1 it.jobId ∧
    (∀ j0 j, alistGet s.jobs it.jobId = some j0 →
      alistGet ((s.deleteJobItem id now).1).jobs it.jobId = some j →
      j.progress = j0.progress) := by
  rw [deleteJobItem_present_eq s id now it h]
  constructor
  · exact totalTimeInvariant_after_totalTime _ _ _
  · intro j0 j h0 hj
    rw [updateJobTotalTime_present { s with jobItems := alistDelete s.jobItems id }
          it.jobId now j0 h0, alistGet_set_self] at hj
    cases hj
    rfl

/-- C5 counterexample: in `sOne` job 1's single item is fully done and
the job's `completedAt` is null.  Running `updateJobProgress` at time 77
drives status to `"completed"` AND writes `completedAt = 77`: the
recompute path does set `completedAt`, because it routes its write
through `updateJob` with `status: "completed"` in the payload. -/
theorem claim_C5_counterexample :
    jobA.completedAt = none ∧
    alistGet (sOne.updateJobProgress 1 77).jobs 1 =
      some { jobA with progress := some 100, status := "completed",
                       completedAt := some 77 } := by
  refine ⟨rfl, ?_⟩
  rw [updateJobProgress_int_form]
  decide

/-- C5 amended: when `updateJobProgress` runs for an existing job, it
sets `completedAt` to the current time exactly when the derived status
it writes is `"completed"` (since it routes through `updateJob`, whose
payload then carries status `"completed"`); otherwise `completedAt`
keeps its previous value. -/
theorem claim_C5_amended (s : MemStorage) (jobId now : Nat) (j0 j : Job)
    (h0 : alistGet s.jobs jobId = some j0)
    (h : alistGet (s.updateJobProgress jobId now).jobs jobId = some j) :
    (j.status = "completed" → j.completedAt = some now) ∧
    (j.status ≠ "completed" → j.completedAt = j0.completedAt) := by
  obtain ⟨-, hst, hc, -⟩ := updateJobProgress_fields s jobId now j0 h0 j h
  constructor
  · intro hjs
    rw [hc, if_pos (hst.symm.trans hjs)]
  · intro hjs
    rw [hc, if_neg (fun hd => hjs (hst.trans hd))]

/-- C6 counterexample: in `sOne` job 1's single item is fully done.
Running the recompute pair at time 0 and then again at time 1, with no
item mutation in between, stores jobs that differ: the first run writes
`completedAt = 0`, the second overwrites it with `completedAt = 1`
(because each run re-sends status `"completed"` through `updateJob`), so
not every Job field is identical after the second run. -/
theorem claim_C6_counterexample :
    alistGet (recomputePair sOne 1 0).jobs 1 =
      some { jobA with totalEstimatedTime := some 40, progress := some 100,
                       status := "completed", completedAt := some 0 } ∧
    alistGet (recomputePair (recomputePair sOne 1 0) 1 1).jobs 1 =
      some { jobA with totalEstimatedTime := some 40, progress := some 100,
                       status := "completed", completedAt := some 1 } ∧
    (some 0 : Option Nat) ≠ some 1 := by
  have h1 : recomputePair sOne 1 0 =
      { sOne with
        jobs := [(1, { jobA with totalEstimatedTime := some 40, progress := some 100,
                                 status := "completed", completedAt := some 0 })] } := by
    unfold recomputePair
    rw [updateJobProgress_int_form]
    decide
  refine ⟨?_, ?_, by decide⟩
  · rw [h1]
    decide
  · rw [h1]
    unfold recomputePair
    rw [updateJobProgress_int_form]
    decide

/-- C6 amended: running the recompute pair twice in a row with no item
mutation in between reproduces every Job field except possibly
`completedAt`: when the derived status is not `"completed"` that field
too is unchanged, but when it is `"completed"` the second run overwrites
`completedAt` with its own current time. -/
theorem claim_C6_amended (s : MemStorage) (jobId t1 t2 : Nat) (j1 j2 : Job)
    (h1 : alistGet (recomputePair s jobId t1).jobs jobId = some j1)
    (h2 : alistGet (recomputePair (recomputePair s jobId t1) jobId t2).jobs jobId = some j2) :
    j2.id = j1.id ∧ j2.customerId = j1.customerId ∧ j2.jobNumber = j1.jobNumber ∧
    j2.status = j1.status ∧ j2.priority = j1.priority ∧ j2.dueDate = j1.dueDate ∧
    j2.notes = j1.notes ∧ j2.totalEstimatedTime = j1.totalEstimatedTime ∧
    j2.actualTime = j1.actualTime ∧ j2.progress = j1.progress ∧
    j2.createdAt = j1.createdAt ∧
    (j1.status ≠ "completed" → j2.completedAt = j1.completedAt) ∧
    (j1.status = "completed" → j2.completedAt = some t2) := by
  cases e : alistGet s.jobs jobId with
  | none =>
      rw [recomputePair_absent s jobId t1 e] at h1
      rw [e] at h1
      cases h1
  | some j0 =>
      obtain ⟨-, -, -, -, -, -, -, -, f1tot, f1prog, f1stat, -⟩ :=
        recomputePair_fields s jobId t1 j0 e j1 h1
      have hit : (recomputePair s jobId t1).getJobItems jobId = s.getJobItems jobId :=
        getJobItems_congr _ _ _ (recomputePair_jobItems s jobId t1)
      obtain ⟨f2id, f2cust, f2num, f2prio, f2due, f2notes, f2act, f2created,
              f2tot, f2prog, f2stat, f2comp⟩ :=
        recomputePair_fields (recomputePair s jobId t1) jobId t2 j1 h1 j2 h2
      rw [hit] at f2tot f2prog f2stat f2comp
      refine ⟨f2id, f2cust, f2num, f2stat.trans f1stat.symm, f2prio, f2due, f2notes,
              f2tot.trans f1tot.symm, f2act, f2prog.trans f1prog.symm, f2created,
              ?_, ?_⟩
      · intro hne
        rw [f2comp, if_neg (fun hd => hne (f1stat.trans hd))]
      · intro heq
        rw [f2comp, if_pos (f1stat.symm.trans heq)]

/-- C8 counterexample: `sDone` holds job 1 already completed with
`completedAt = 5`.  A further `updateJob` whose payload again carries
status `"completed"`, at time 9, overwrites `completedAt` to 9 — so
`completedAt` is not written exactly once and is not preserved on an
already-completed job. -/
theorem claim_C8_counterexample :
    jobDone.status = "completed" ∧ jobDone.completedAt = some 5 ∧
    ((sDone.updateJob 1 { status := some "completed" } 9).2).map Job.completedAt =
      some (some 9) := by
  refine ⟨rfl, rfl, ?_⟩
  decide

/-- C8 amended: `updateJob` on an existing job sets `completedAt` to the
current time whenever the update payload's status field is
`"completed"` — regardless of the job's previous status, so repeated
completed-updates overwrite it — and keeps the previous `completedAt`
whenever the payload status is absent or different. -/
theorem claim_C8_amended (s : MemStorage) (id : Nat) (p : JobPatch) (now : Nat)
    (j0 : Job) (h : alistGet s.jobs id = some j0) :
    ∃ j, (s.updateJob id p now).2 = some j ∧
      alistGet ((s.updateJob id p now).1).jobs id = some j ∧
      j.completedAt = if p.status = some "completed" then some now else j0.completedAt := by
  rw [updateJob_present s id p now j0 h]
  exact ⟨updateJobApply j0 p now, rfl, alistGet_set_self _ _ _, rfl⟩

/-- C1 witness: concrete create, update and delete runs on `s0`, each
checked against the recomputed total (74, 60 and 40 minutes). -/
theorem claim_C1_witness :
    (alistGet ((s0.createJobItem insItemC 3).1).jobs 1 =
        some { jobA with totalEstimatedTime := some 74 } ∧
      ({ jobA with totalEstimatedTime := some 74 } : Job).totalEstimatedTime =
        some (specTotalTime (((s0.createJobItem insItemC 3).1).getJobItems 1))) ∧
    (alistGet s0.jobItems 1 = some itemA ∧
      alistGet ((s0.updateJobItem 1 { completedQuantity := some 2 } 0).1).jobs 1 =
        some { jobA with totalEstimatedTime := some 60, progress := some 25 } ∧
      ({ jobA with totalEstimatedTime := some 60, progress := some 25 } : Job).totalEstimatedTime =
        some (specTotalTime
          (((s0.updateJobItem 1 { completedQuantity := some 2 } 0).1).getJobItems 1))) ∧
    (alistGet s0.jobItems 2 = some itemB ∧
      alistGet ((s0.deleteJobItem 2 0).1).jobs 1 =
        some { jobA with totalEstimatedTime := some 40 } ∧
      ({ jobA with totalEstimatedTime := some 40 } : Job).totalEstimatedTime =
        some (specTotalTime (((s0.deleteJobItem 2 0).1).getJobItems 1))) := by
  have hc : alistGet ((s0.createJobItem insItemC 3).1).jobs 1 =
      some { jobA with totalEstimatedTime := some 74 } := by
    rw [createJobItem_eq]
    unfold recomputePair
    rw [updateJobProgress_int_form]
    decide
  have hu0 : alistGet s0.jobItems 1 = some itemA := by decide
  have hu : alistGet ((s0.updateJobItem 1 { completedQuantity := some 2 } 0).1).jobs 1 =
      some { jobA with totalEstimatedTime := some 60, progress := some 25 } := by
    rw [updateJobItem_present_eq s0 1 _ 0 itemA hu0]
    unfold recomputePair
    rw [updateJobProgress_int_form]
    decide
  have hd0 : alistGet s0.jobItems 2 = some itemB := by decide
  have hd : alistGet ((s0.deleteJobItem 2 0).1).jobs 1 =
      some { jobA with totalEstimatedTime := some 40 } := by decide
  exact ⟨⟨hc, (claim_C1_totalTime s0 3).1 insItemC _ hc⟩,
         ⟨hu0, hu,
          (claim_C1_totalTime s0 0).2.1 1 { completedQuantity := some 2 } itemA hu0 _ hu⟩,
         ⟨hd0, hd, (claim_C1_totalTime s0 0).2.2 2 itemB hd0 _ hd⟩⟩

/-- C2 witness: on `s0` (8 units, 4 done) the recompute leaves job 1 at
50 percent, matching the spec's half-up rounding formula. -/
theorem claim_C2_witness :
    alistGet (s0.updateJobProgress 1 0).jobs 1 = some jobA ∧
    0 < specQuantity ((s0.updateJobProgress 1 0).getJobItems 1) ∧
    jobA.progress = some (roundHalfUp
      (100 * (specCompleted ((s0.updateJobProgress 1 0).getJobItems 1) : ℚ) /
        (specQuantity ((s0.updateJobProgress 1 0).getJobItems 1) : ℚ))) := by
  have hget : alistGet (s0.updateJobProgress 1 0).jobs 1 = some jobA := by
    rw [updateJobProgress_int_form]
    decide
  have hq : 0 < specQuantity ((s0.updateJobProgress 1 0).getJobItems 1) := by
    rw [updateJobProgress_int_form]
    decide
  exact ⟨hget, hq, (claim_C2_progress s0 1 0 jobA hget).1 hq⟩

/-- C3 witness: on `sPaused` (job manually paused, 4 of 8 units done)
the recompute writes progress 50 and status `"printing"`, replacing the
stored `"paused"`. -/
theorem claim_C3_witness :
    jobPaused.status = "paused" ∧
    alistGet (sPaused.updateJobProgress 1 0).jobs 1 = some jobA ∧
    jobA.status = "printing" := by
  have hget : alistGet (sPaused.updateJobProgress 1 0).jobs 1 = some jobA := by
    rw [updateJobProgress_int_form]
    decide
  exact ⟨rfl, hget,
    (claim_C3_statusMap sPaused 1 0 jobA hget).2.1 50 rfl (by decide) (by decide)⟩

/-- C4 witness for the amended claim: deleting item B of `s0` recomputes
the total to 40 while progress keeps its stored value. -/
theorem claim_C4_witness :
    alistGet s0.jobItems 2 = some itemB ∧
    ({ jobA with totalEstimatedTime := some 40 } : Job).totalEstimatedTime =
      some (specTotalTime (((s0.deleteJobItem 2 0).1).getJobItems 1)) ∧
    ({ jobA with totalEstimatedTime := some 40 } : Job).progress = jobA.progress := by
  have h2 : alistGet s0.jobItems 2 = some itemB := by decide
  have hget : alistGet ((s0.deleteJobItem 2 0).1).jobs 1 =
      some { jobA with totalEstimatedTime := some 40 } := by decide
  have h0 : alistGet s0.jobs 1 = some jobA := by decide
  have ha := claim_C4_amended s0 2 0 itemB h2
  exact ⟨h2, ha.1 _ hget, ha.2 jobA _ h0 hget⟩

/-- C5 witness for the amended claim: on `sOne` the recompute at time 77
completes the job and stamps `completedAt = 77`. -/
theorem claim_C5_witness :
    alistGet sOne.jobs 1 = some jobA ∧
    alistGet (sOne.updateJobProgress 1 77).jobs 1 =
      some { jobA with progress := some 100, status := "completed",
                       completedAt := some 77 } ∧
    ({ jobA with progress := some 100, status := "completed",
                 completedAt := some 77 } : Job).completedAt = some 77 := by
  have h0 : alistGet sOne.jobs 1 = some jobA := by decide
  have hget : alistGet (sOne.updateJobProgress 1 77).jobs 1 =
      some { jobA with progress := some 100, status := "completed",
                       completedAt := some 77 } := by
    rw [updateJobProgress_int_form]
    decide
  exact ⟨h0, hget, (claim_C5_amended sOne 1 77 jobA _ h0 hget).1 rfl⟩

/-- C6 witness for the amended claim: on `s0` the derived status is
`"printing"`, so two recompute runs at times 0 and 1 store identical
jobs, `completedAt` included. -/
theorem claim_C6_witness :
    alistGet (recomputePair s0 1 0).jobs 1 =
      some { jobA with totalEstimatedTime := some 60 } ∧
    alistGet (recomputePair (recomputePair s0 1 0) 1 1).jobs 1 =
      some { jobA with totalEstimatedTime := some 60 } ∧
    ({ jobA with totalEstimatedTime := some 60 } : Job).completedAt =
      ({ jobA with totalEstimatedTime := some 60 } : Job).completedAt := by
  have hs1 : recomputePair s0 1 0 =
      { s0 with jobs := [(1, { jobA with totalEstimatedTime := some 60 })] } := by
    unfold recomputePair
    rw [updateJobProgress_int_form]
    decide
  have h1 : alistGet (recomputePair s0 1 0).jobs 1 =
      some { jobA with totalEstimatedTime := some 60 } := by
    rw [hs1]
    decide
  have h2 : alistGet (recomputePair (recomputePair s0 1 0) 1 1).jobs 1 =
      some { jobA with totalEstimatedTime := some 60 } := by
    rw [hs1]
    unfold recomputePair
    rw [updateJobProgress_int_form]
    decide
  obtain ⟨-, -, -, -, -, -, -, -, -, -, -, hne, -⟩ :=
    claim_C6_amended s0 1 0 1 _ _ h1 h2
  exact ⟨h1, h2, hne (by decide)⟩

/-- C7 witness: from a fresh store the 1st, 2nd and 11th generated
numbers in year 2024 are "2024-001", "2024-002" and "2024-011". -/
theorem claim_C7_witness :
    sFresh.jobCounter = 1 ∧
    nthJobNumber sFresh 2024 1 = "2024-001" ∧
    nthJobNumber sFresh 2024 2 = "2024-002" ∧
    nthJobNumber sFresh 2024 11 = "2024-011" := by
  refine ⟨rfl, ?_, ?_, ?_⟩
  · exact ((claim_C7_jobNumbers 2024 1 sFresh rfl (by decide)).1).trans (by decide)
  · exact ((claim_C7_jobNumbers 2024 2 sFresh rfl (by decide)).1).trans (by decide)
  · exact ((claim_C7_jobNumbers 2024 11 sFresh rfl (by decide)).1).trans (by decide)

/-- C8 witness for the amended claim: re-sending status `"completed"`
for the already-completed job of `sDone` at time 9 overwrites its
`completedAt`. -/
theorem claim_C8_witness :
    alistGet sDone.jobs 1 = some jobDone ∧
    (∃ j, (sDone.updateJob 1 { status := some "completed" } 9).2 = some j ∧
      alistGet ((sDone.updateJob 1 { status := some "completed" } 9).1).jobs 1 = some j ∧
      j.completedAt =
        if ({ status := some "completed" } : JobPatch).status = some "completed"
        then some 9 else jobDone.completedAt) :=
  ⟨by decide, claim_C8_amended sDone 1 { status := some "completed" } 9 jobDone (by decide)⟩

/-- C9 witness: on the fresh store there is no job 1, and both
recomputes against it return the store unchanged. -/
theorem claim_C9_witness :
    alistGet sFresh.jobs 1 = none ∧
    (sFresh.updateJobTotalTime 1 0 = sFresh ∧ sFresh.updateJobProgress 1 0 = sFresh) :=
  ⟨by decide, claim_C9_missingJob sFresh 1 0 (by decide)⟩
